import Mathlib

/-!
Hook Execution subsystem — shallow embedding and verification.

This file embeds the hook-execution core of the repository
(`HookManager` in `packages/core/src/hooks/hook-manager.ts`, with its data
model in `packages/core/src/hooks/types.ts`) and proves properties of the
embedding.

The embedding is pure and event-structured:
* the JavaScript `RegExp` constructor/test pair is abstracted as a
  `compile : String → Option (String → Bool)` oracle (`none` models the
  constructor throwing on a malformed pattern);
* `JSON.parse` of the stdout of a hook is abstracted as a
  `parse : String → Option HookResponse` oracle (`none` models a parse
  failure or a parse result without the known fields);
* one run of a child process is summarised by a `ChildBehavior` value: which
  of the event handlers of the runner fire and with what data.  The runner
  (`executeHook`) maps a behavior to `Option HookResult`, where `none` means
  the promise it returns never settles;
* the concurrent `Promise.allSettled` join in `executeHooks` is modelled by a
  `settle : Nat → HookCommand → Except String HookResult` assignment giving,
  for each queued command (by queue position), either its fulfilled result or
  the fault (`Except.error`) its execution was rejected with.
-/

namespace MechHooks

/-- `HookType` enum from `types.ts`: the closed set of lifecycle events. -/
inductive HookType where
  | PreToolUse
  | PostToolUse
  | Notification
  | UserPromptSubmit
  | Stop
  | SubagentStop
  | PreCompact
  | SessionStart
  | SessionEnd
deriving DecidableEq, Repr

/-- `HookResponse` from `types.ts`: the optional structured JSON stdout
response.  `block?: boolean` and `message?: string` become `Option`s; the
free-form `context` map carries no information used by the manager and is
omitted. -/
structure HookResponse where
  block : Option Bool
  message : Option String
deriving DecidableEq, Repr

/-- `HookResult` from `types.ts`: the outcome of one hook execution. -/
structure HookResult where
  exitCode : Int
  stdout : String
  stderr : String
  shouldBlock : Bool
  response : Option HookResponse
deriving DecidableEq, Repr

/-- `HookCommand` from `types.ts`.  The `type` discriminant is the constant
string `command` and is omitted. -/
structure HookCommand where
  command : String
  timeout : Option Nat
deriving DecidableEq, Repr

/-- `HookMatcher` from `types.ts`. -/
structure HookMatcher where
  matcher : String
  hooks : List HookCommand
deriving DecidableEq, Repr

/-- `HooksConfig` from `types.ts`: one optional rule list per event type. -/
structure HooksConfig where
  PreToolUse : Option (List HookMatcher) := none
  PostToolUse : Option (List HookMatcher) := none
  Notification : Option (List HookMatcher) := none
  UserPromptSubmit : Option (List HookMatcher) := none
  Stop : Option (List HookMatcher) := none
  SubagentStop : Option (List HookMatcher) := none
  PreCompact : Option (List HookMatcher) := none
  SessionStart : Option (List HookMatcher) := none
  SessionEnd : Option (List HookMatcher) := none
deriving DecidableEq, Repr

/-- The indexing `this.hooksConfig[hookType]` used by `executeHooks`. -/
def HooksConfig.get (c : HooksConfig) : HookType → Option (List HookMatcher)
  | .PreToolUse => c.PreToolUse
  | .PostToolUse => c.PostToolUse
  | .Notification => c.Notification
  | .UserPromptSubmit => c.UserPromptSubmit
  | .Stop => c.Stop
  | .SubagentStop => c.SubagentStop
  | .PreCompact => c.PreCompact
  | .SessionStart => c.SessionStart
  | .SessionEnd => c.SessionEnd

/-- `HookInput` from `types.ts`.  The `Record<string, unknown>` context
fields (`toolParams`, `toolResult`, `eventData`) are opaque payloads the
manager only serialises, embedded as association lists. -/
structure HookInput where
  sessionId : String
  hookType : HookType
  toolName : Option String
  toolParams : Option (List (String × String))
  toolResult : Option (List (String × String))
  userPrompt : Option String
  eventData : Option (List (String × String))
  cwd : String
  projectRoot : String
  timestamp : Nat
deriving DecidableEq, Repr

/-- `DEFAULT_HOOK_TIMEOUT` from `types.ts` (milliseconds). -/
def DEFAULT_HOOK_TIMEOUT : Nat := 60000

/-- `BLOCKING_EXIT_CODE` from `types.ts`. -/
def BLOCKING_EXIT_CODE : Int := 2

/-- `SUCCESS_EXIT_CODE` from `types.ts`. -/
def SUCCESS_EXIT_CODE : Int := 0

/-- `HookManager.matchesPattern`: wildcard check, then `new RegExp(pattern)`
and `regex.test(toolName)` inside `try`, returning `false` from `catch`.
`compile` abstracts the `RegExp` builtin; `compile pattern = none` is the
constructor throwing on a malformed pattern. -/
def matchesPattern (compile : String → Option (String → Bool))
    (pattern toolName : String) : Bool :=
  if pattern = "*" then true
  else
    match compile pattern with
    | some test => test toolName
    | none => false

/-- One run of a spawned child process, as seen by the handlers of the runner:
* `spawnError msg` — the child emitted an `error` event (spawn failure);
* `stdinWriteError msg` — writing the serialised input to the stdin of the child
  threw;
* `closes timedOut exitCode stdout stderr` — the `close` event fired with
  the given exit code after the given accumulated output; `timedOut` records
  whether the timeout timer fired (and sent `SIGTERM`) first;
* `neverCloses` — the timeout timer fired and sent `SIGTERM`, the child
  ignored the signal and never exited, so neither `close` nor `error` ever
  fires. -/
inductive ChildBehavior where
  | spawnError (message : String)
  | stdinWriteError (message : String)
  | closes (timedOut : Bool) (exitCode : Option Int) (stdout stderr : String)
  | neverCloses
deriving DecidableEq, Repr

/-- The JavaScript `String.prototype.trim()` used on stdout before the
parse attempt: drop leading and trailing whitespace. -/
def jsTrim (s : String) : String :=
  ⟨((s.data.dropWhile Char.isWhitespace).reverse.dropWhile
      Char.isWhitespace).reverse⟩

/-- The stderr prefix the `close` handler adds for a timed-out run. -/
def timeoutNotice (timeout : Nat) : String :=
  "Hook timed out after " ++ toString timeout ++ "ms\n"

/-- The body of the `close` handler of the runner: compute the effective exit
code, derive blocking from it, then try to parse stdout as a structured
response; an explicitly present `block` flag resolves early (overriding the
exit-code rule and skipping the timeout stderr prefix), otherwise the final
`resolve` attaches any parsed response and prefixes stderr with the timeout
notice when the run timed out. -/
def closeResult (parse : String → Option HookResponse) (timeout : Nat)
    (timedOut : Bool) (exitCode : Option Int) (stdout stderr : String) :
    HookResult :=
  let actualExitCode : Int := if timedOut then 1 else exitCode.getD 1
  let shouldBlock : Bool := actualExitCode = BLOCKING_EXIT_CODE
  let response : Option HookResponse :=
    if jsTrim stdout = "" then none else parse stdout
  match response with
  | some resp =>
    match resp.block with
    | some b =>
      { exitCode := actualExitCode, stdout := stdout, stderr := stderr,
        shouldBlock := b, response := some resp }
    | none =>
      { exitCode := actualExitCode, stdout := stdout,
        stderr := if timedOut then timeoutNotice timeout ++ stderr else stderr,
        shouldBlock := shouldBlock, response := some resp }
  | none =>
    { exitCode := actualExitCode, stdout := stdout,
      stderr := if timedOut then timeoutNotice timeout ++ stderr else stderr,
      shouldBlock := shouldBlock, response := none }

/-- `HookManager.executeHook`: the promise resolves from exactly one of the
stdin-write `catch`, the `error` handler, or the `close` handler; the timer
callback only records `timedOut` and sends `SIGTERM`, it resolves nothing,
so on the `neverCloses` behavior the promise never settles (`none`). -/
def executeHook (parse : String → Option HookResponse)
    (hook : HookCommand) (b : ChildBehavior) : Option HookResult :=
  let timeout := hook.timeout.getD DEFAULT_HOOK_TIMEOUT
  match b with
  | .spawnError msg =>
    some { exitCode := 1, stdout := "",
           stderr := "Failed to spawn hook: " ++ msg,
           shouldBlock := false, response := none }
  | .stdinWriteError msg =>
    some { exitCode := 1, stdout := "",
           stderr := "Failed to write to stdin: " ++ msg,
           shouldBlock := false, response := none }
  | .closes timedOut exitCode stdout stderr =>
    some (closeResult parse timeout timedOut exitCode stdout stderr)
  | .neverCloses => none

/-- The result `executeHooks` records for a rejected execution. -/
def errorResult (reason : String) : HookResult :=
  { exitCode := 1, stdout := "", stderr := reason,
    shouldBlock := false, response := none }

/-- The queue built by `executeHooks`: for each matcher whose pattern
matches the subject `input.toolName` with the string `*` substituted when it
is nullish (the `??` operator), all of its hook commands, in order. -/
def queuedHooks (compile : String → Option (String → Bool))
    (matchers : List HookMatcher) (toolName : Option String) :
    List HookCommand :=
  matchers.flatMap fun m =>
    if matchesPattern compile m.matcher (toolName.getD "*") then m.hooks
    else []

/-- The `Promise.allSettled` collection loop: the settlement of each queued
command (numbered by queue position) is taken as is when fulfilled and
replaced by `errorResult` of the stringified reason when rejected. -/
def settleAll (settle : Nat → HookCommand → Except String HookResult) :
    Nat → List HookCommand → List HookResult
  | _, [] => []
  | i, h :: t =>
    (match settle i h with
     | .ok v => v
     | .error reason => errorResult reason) :: settleAll settle (i + 1) t

/-- `HookManager.executeHooks`: short-circuit on a missing config or a
missing/empty matcher list, otherwise queue every command of every matching
rule and collect all settlements. -/
def executeHooks (compile : String → Option (String → Bool))
    (settle : Nat → HookCommand → Except String HookResult)
    (hooksConfig : Option HooksConfig) (hookType : HookType)
    (input : HookInput) : List HookResult :=
  match hooksConfig with
  | none => []
  | some c =>
    match c.get hookType with
    | none => []
    | some matchers =>
      if matchers.isEmpty then []
      else settleAll settle 0 (queuedHooks compile matchers input.toolName)

/-- `HookManager.shouldBlockOperation`. -/
def shouldBlockOperation (results : List HookResult) : Bool :=
  results.any fun r => r.shouldBlock

/-- The truthiness of `r.response?.message` in JavaScript: a present,
non-empty message; both an absent response and an absent or empty message
yield `""` (falsy). -/
def respMessage (r : HookResult) : String :=
  match r.response with
  | some resp => resp.message.getD ""
  | none => ""

/-- The fallback string of `getBlockingMessage`. -/
def hookBlockedFallback : String := "Hook blocked operation (no message provided)"

/-- The per-outcome chooser inside the `map` of `getBlockingMessage`: response
message, else stderr, else stdout, else the fallback (JavaScript truthiness:
empty strings are skipped). -/
def blockingFragment (r : HookResult) : String :=
  if respMessage r ≠ "" then respMessage r
  else if r.stderr ≠ "" then r.stderr
  else if r.stdout ≠ "" then r.stdout
  else hookBlockedFallback

/-- `HookManager.getBlockingMessage`. -/
def getBlockingMessage (results : List HookResult) : String :=
  let blockingResults := results.filter fun r => r.shouldBlock
  if blockingResults.isEmpty then ""
  else String.intercalate "\n" (blockingResults.map blockingFragment)

/-- View: the explicit `block` flag carried by the attached parsed
response, when both are present. -/
def responseBlockFlag (r : HookResult) : Option Bool :=
  match r.response with
  | some resp => resp.block
  | none => none

/-- View: the queue of hook commands a dispatch builds before running
anything — the `flatMap` expression of `executeHooks` behind its
short-circuits. -/
def dispatchQueue (compile : String → Option (String → Bool))
    (hooksConfig : Option HooksConfig) (hookType : HookType)
    (input : HookInput) : List HookCommand :=
  match hooksConfig with
  | none => []
  | some c =>
    match c.get hookType with
    | none => []
    | some matchers => queuedHooks compile matchers input.toolName

/-- A `RegExp` oracle for witnesses: only the pattern `"Bash"` compiles, to
a test for the exact tool name. -/
def bashTest (s : String) : Bool := s = "Bash"

/-- See `bashTest`. -/
def bashCompile : String → Option (String → Bool) :=
  fun p => if p = "Bash" then some bashTest else none

/-- A settlement assignment for witnesses that rejects every execution. -/
def rejectSettle : Nat → HookCommand → Except String HookResult :=
  fun _ _ => Except.error "unused"

/-- A concrete dispatch input for witnesses. -/
def sampleInput : HookInput :=
  { sessionId := "s1", hookType := HookType.PreToolUse, toolName := none,
    toolParams := none, toolResult := none, userPrompt := none,
    eventData := none, cwd := "/tmp", projectRoot := "/tmp", timestamp := 0 }

/-- A parse oracle for the C1 witness: the JSON text `{"block":false}`
parses to a response with the explicit flag `false`; nothing else parses. -/
def parseBlockFalse : String → Option HookResponse := fun s =>
  if s = "\x7b\"block\":false\x7d" then
    some { block := some false, message := none }
  else none

/-- The hook command of the C1 witness. -/
def hookBF : HookCommand := { command := "./check.sh", timeout := none }

/-- The child behavior of the C1 witness: exits with the blocking code 2
after printing `{"block":false}`. -/
def behBF : ChildBehavior :=
  ChildBehavior.closes false (some 2) "\x7b\"block\":false\x7d" ""

/-- The outcome of the C1 witness run: the explicit `false` flag overrides
the blocking exit code. -/
def resultBF : HookResult :=
  { exitCode := 2, stdout := "\x7b\"block\":false\x7d", stderr := "",
    shouldBlock := false, response := some { block := some false, message := none } }

/-- A parse oracle for the C3 counterexample: the JSON text `{"block":true}`
parses to a response with the explicit flag `true`. -/
def parseBlockTrue : String → Option HookResponse := fun s =>
  if s = "\x7b\"block\":true\x7d" then
    some { block := some true, message := none }
  else none

/-- A hook command with a 50 ms timeout. -/
def hookTO : HookCommand := { command := "./slow.sh", timeout := some 50 }

/-- A parse oracle recognising nothing, for the C3 witness. -/
def parseNothing : String → Option HookResponse := fun _ => none

/-- The outcome of the C3 witness run. -/
def resultTO : HookResult :=
  { exitCode := 1, stdout := "", stderr := "Hook timed out after 50ms\nerr",
    shouldBlock := false, response := none }

/-- A non-blocking outcome used by the C2 witness. -/
def allowOutcome : HookResult :=
  { exitCode := 0, stdout := "ok", stderr := "", shouldBlock := false,
    response := none }

/-- A test matching exactly the one-character string `*`, as the regular
expression pattern with an escaped star anchored at both ends does. -/
def starTest (s : String) : Bool := s = "*"

/-- An oracle under which every pattern compiles to `starTest`. -/
def starCompile : String → Option (String → Bool) := fun _ => some starTest

/-- The hook command of the C6 counterexample. -/
def auditCmd : HookCommand := { command := "./audit.sh", timeout := none }

/-- A registry with one concrete (non-wildcard) pattern for `PreToolUse`. -/
def starConfig : HooksConfig :=
  { PreToolUse := some [{ matcher := "starpat", hooks := [auditCmd] }] }

/-- A successful outcome used by the C6 counterexample settlement. -/
def okOutcome : HookResult :=
  { exitCode := 0, stdout := "", stderr := "", shouldBlock := false,
    response := none }

/-- A settlement assignment fulfilling every execution with `okOutcome`. -/
def okSettle : Nat → HookCommand → Except String HookResult :=
  fun _ _ => Except.ok okOutcome

section Helpers

theorem string_length_zero {a : String} (h : a.length = 0) : a = "" := by
  cases a with
  | mk data =>
    simp [String.length] at h
    simp [h]

theorem intercalate_go_length (s : String) :
    ∀ (l : List String) (acc : String),
      acc.length ≤ (String.intercalate.go acc s l).length := by
  intro l
  induction l with
  | nil => intro acc; simp [String.intercalate.go]
  | cons a as ih =>
    intro acc
    calc acc.length ≤ (acc ++ s ++ a).length := by
          simp [String.length_append]
          omega
      _ ≤ (String.intercalate.go (acc ++ s ++ a) s as).length := ih _

theorem intercalate_cons_ne_empty (a : String) (l : List String)
    (h : a ≠ "") : String.intercalate "\n" (a :: l) ≠ "" := by
  intro hc
  have h1 : a.length ≤ (String.intercalate "\n" (a :: l)).length := by
    simpa [String.intercalate] using intercalate_go_length "\n" l a
  rw [hc] at h1
  have h2 : a.length = 0 := by
    have h0 : ("" : String).length = 0 := rfl
    omega
  exact h (string_length_zero h2)

theorem blockingFragment_ne_empty (r : HookResult) :
    blockingFragment r ≠ "" := by
  unfold blockingFragment
  split
  · next h => exact h
  · split
    · next h => exact h
    · split
      · next h => exact h
      · intro hc
        exact absurd hc (by decide)

/-- Field-level description of the `close` handler, shared by the claims
about blocking and about timeouts. -/
theorem closeResult_cases (parse : String → Option HookResponse)
    (timeout : Nat) (timedOut : Bool) (exitCode : Option Int)
    (stdout stderr : String) :
    (closeResult parse timeout timedOut exitCode stdout stderr).exitCode =
      (if timedOut then 1 else exitCode.getD 1)
    ∧ (closeResult parse timeout timedOut exitCode stdout stderr).stdout =
      stdout
    ∧ (closeResult parse timeout timedOut exitCode stdout stderr).response =
      (if jsTrim stdout = "" then none else parse stdout)
    ∧ (closeResult parse timeout timedOut exitCode stdout stderr).shouldBlock =
      ((responseBlockFlag
          (closeResult parse timeout timedOut exitCode stdout stderr)).getD
        (decide
          ((closeResult parse timeout timedOut exitCode stdout
              stderr).exitCode = BLOCKING_EXIT_CODE)))
    ∧ (closeResult parse timeout timedOut exitCode stdout stderr).stderr =
      (if (responseBlockFlag
            (closeResult parse timeout timedOut exitCode stdout
              stderr)).isSome then stderr
       else if timedOut then timeoutNotice timeout ++ stderr else stderr) := by
  unfold closeResult
  cases hresp : (if jsTrim stdout = "" then none else parse stdout) with
  | none => simp [responseBlockFlag, hresp]
  | some resp =>
    cases hb : resp.block with
    | none => simp [responseBlockFlag, hresp, hb]
    | some b => simp [responseBlockFlag, hresp, hb]

/-- Reading the blocking verdict off the explicit flag and the exit code. -/
theorem getD_blocks_iff (flag : Option Bool) (ec : Int) (sb : Bool)
    (h : sb = flag.getD (decide (ec = BLOCKING_EXIT_CODE))) :
    sb = true ↔ (flag = some true ∨ (flag = none ∧ ec = BLOCKING_EXIT_CODE)) := by
  cases flag with
  | none => simp at h; subst h; simp [decide_eq_true_eq]
  | some b => cases b <;> simp_all

/-- The per-position settlement collection, written over `List.enumFrom`. -/
theorem settleAll_eq (settle : Nat → HookCommand → Except String HookResult) :
    ∀ (l : List HookCommand) (i : Nat),
      settleAll settle i l = (List.enumFrom i l).map (fun p =>
        match settle p.1 p.2 with
        | Except.ok v => v
        | Except.error reason => errorResult reason) := by
  intro l
  induction l with
  | nil => intro i; rfl
  | cons hcmd t ih =>
    intro i
    simp only [settleAll, List.enumFrom_cons, List.map_cons]
    rw [ih]

end Helpers

/-- C5: `matchesPattern` returns `true` on the literal wildcard token;
otherwise it returns exactly what regular-expression testing of the compiled
pattern against the tool name returns; and when the pattern fails to compile
it returns `false` (fail closed) instead of raising. -/
theorem matchesPattern_contract (compile : String → Option (String → Bool))
    (pattern toolName : String) :
    (pattern = "*" → matchesPattern compile pattern toolName = true)
    ∧ (pattern ≠ "*" → ∀ test, compile pattern = some test →
        matchesPattern compile pattern toolName = test toolName)
    ∧ (pattern ≠ "*" → compile pattern = none →
        matchesPattern compile pattern toolName = false) := by
  refine ⟨fun h => ?_, fun h test htest => ?_, fun h hnone => ?_⟩
  · simp [matchesPattern, h]
  · simp [matchesPattern, h, htest]
  · simp [matchesPattern, h, hnone]

/-- Witness for C5 at the concrete oracle `bashCompile`. -/
theorem matchesPattern_contract_witness :
    (("Bash" : String) ≠ "*" ∧ bashCompile "Bash" = some bashTest)
    ∧ matchesPattern bashCompile "Bash" "Bash" = bashTest "Bash" := by
  refine ⟨⟨by decide, rfl⟩, ?_⟩
  exact (matchesPattern_contract bashCompile "Bash" "Bash").2.1 (by decide)
    bashTest rfl

/-- C7: a spawn failure and a stdin-write failure each resolve (rather than
throw) with exit code 1, empty stdout, a stderr message describing the
failure, and `blocks = false`. -/
theorem executeHook_failure_paths (parse : String → Option HookResponse)
    (hook : HookCommand) (msg : String) :
    executeHook parse hook (ChildBehavior.spawnError msg) =
      some { exitCode := 1, stdout := "",
             stderr := "Failed to spawn hook: " ++ msg,
             shouldBlock := false, response := none }
    ∧ executeHook parse hook (ChildBehavior.stdinWriteError msg) =
      some { exitCode := 1, stdout := "",
             stderr := "Failed to write to stdin: " ++ msg,
             shouldBlock := false, response := none } :=
  ⟨rfl, rfl⟩

/-- C8: with no configuration, or no rule list (or an empty one) for the
event, dispatch returns the empty outcome list — for every settlement
assignment, i.e. without running any queued execution. -/
theorem executeHooks_empty_registry (compile : String → Option (String → Bool))
    (hooksConfig : Option HooksConfig) (hookType : HookType)
    (input : HookInput)
    (h : hooksConfig = none ∨
      ∃ c, hooksConfig = some c ∧
        (c.get hookType = none ∨ c.get hookType = some [])) :
    ∀ settle, executeHooks compile settle hooksConfig hookType input = [] := by
  intro settle
  rcases h with h | ⟨c, rfl, h | h⟩
  · simp [executeHooks, h]
  · simp [executeHooks, h]
  · simp [executeHooks, h]

/-- Witness for C8 at the all-`none` configuration. -/
theorem executeHooks_empty_registry_witness :
    (some ({} : HooksConfig) = none ∨
      ∃ c, some ({} : HooksConfig) = some c ∧
        (HooksConfig.get c HookType.PreToolUse = none ∨
         HooksConfig.get c HookType.PreToolUse = some []))
    ∧ executeHooks bashCompile rejectSettle (some {}) HookType.PreToolUse
        sampleInput = [] := by
  refine ⟨Or.inr ⟨{}, rfl, Or.inl rfl⟩, ?_⟩
  exact executeHooks_empty_registry bashCompile (some {}) HookType.PreToolUse
    sampleInput (Or.inr ⟨{}, rfl, Or.inl rfl⟩) rejectSettle

/-- C9 (code evaluated at the failing behavior): when the child ignores the
`SIGTERM` sent by the timeout timer and never exits, no handler that
resolves the promise ever fires, so the runner never settles — the caller
waits indefinitely, for every parse oracle and every hook command. -/
theorem executeHook_never_settles_on_ignored_sigterm
    (parse : String → Option HookResponse) (hook : HookCommand) :
    executeHook parse hook ChildBehavior.neverCloses = none := rfl

/-- C1: on every settled outcome, `blocks` equals the explicit `block` flag
of the parsed response when that flag is present, and otherwise equals
whether the effective exit code is the reserved blocking code; in
particular the outcome blocks exactly when the flag is explicitly `true` or
the flag is absent and the exit code is 2, and on a `close` the parsed
response (parse of a non-whitespace stdout) is attached to the outcome even
when its flag is absent. -/
theorem executeHook_blocks_contract (parse : String → Option HookResponse)
    (hook : HookCommand) (b : ChildBehavior) (r : HookResult)
    (h : executeHook parse hook b = some r) :
    r.shouldBlock =
      ((responseBlockFlag r).getD (decide (r.exitCode = BLOCKING_EXIT_CODE)))
    ∧ (r.shouldBlock = true ↔
        (responseBlockFlag r = some true ∨
          (responseBlockFlag r = none ∧ r.exitCode = BLOCKING_EXIT_CODE)))
    ∧ (∀ timedOut exitCode stdout stderr,
        b = ChildBehavior.closes timedOut exitCode stdout stderr →
        r.response = (if jsTrim stdout = "" then none else parse stdout)) := by
  cases b with
  | spawnError msg =>
    simp [executeHook] at h
    subst h
    refine ⟨by simp [responseBlockFlag, BLOCKING_EXIT_CODE], ?_, ?_⟩
    · simp [responseBlockFlag, BLOCKING_EXIT_CODE]
    · intro timedOut exitCode stdout stderr hEq
      exact absurd hEq (by simp)
  | stdinWriteError msg =>
    simp [executeHook] at h
    subst h
    refine ⟨by simp [responseBlockFlag, BLOCKING_EXIT_CODE], ?_, ?_⟩
    · simp [responseBlockFlag, BLOCKING_EXIT_CODE]
    · intro timedOut exitCode stdout stderr hEq
      exact absurd hEq (by simp)
  | closes timedOut exitCode stdout stderr =>
    simp [executeHook] at h
    subst h
    obtain ⟨hec, hout, hresp, hblock, herr⟩ :=
      closeResult_cases parse (hook.timeout.getD DEFAULT_HOOK_TIMEOUT)
        timedOut exitCode stdout stderr
    refine ⟨hblock, getD_blocks_iff _ _ _ hblock, ?_⟩
    intro timedOut2 exitCode2 stdout2 stderr2 hEq
    injection hEq with h1 h2 h3 h4
    subst h3
    exact hresp
  | neverCloses => simp [executeHook] at h

/-- Witness for C1: a hook that exits 2 but prints an explicit
`block: false` settles with `blocks = false`. -/
theorem executeHook_blocks_contract_witness :
    executeHook parseBlockFalse hookBF behBF = some resultBF
    ∧ (resultBF.shouldBlock =
        ((responseBlockFlag resultBF).getD
          (decide (resultBF.exitCode = BLOCKING_EXIT_CODE)))
      ∧ (resultBF.shouldBlock = true ↔
          (responseBlockFlag resultBF = some true ∨
            (responseBlockFlag resultBF = none ∧
              resultBF.exitCode = BLOCKING_EXIT_CODE)))
      ∧ (∀ timedOut exitCode stdout stderr,
          behBF = ChildBehavior.closes timedOut exitCode stdout stderr →
          resultBF.response =
            (if jsTrim stdout = "" then none else parseBlockFalse stdout))) :=
  ⟨by decide, executeHook_blocks_contract parseBlockFalse hookBF behBF
    resultBF (by decide)⟩

/-- Counterexample to C3: a run whose timer fired (`timedOut = true`, the
child was killed, `close` reports no exit code) but whose accumulated stdout
already held `{"block":true}` settles through the early-resolve path with
`blocks = true` and a stderr that carries no timeout notice — against the
claim that every timed-out run has `blocks = false` and a stderr prefixed
with the notice. -/
theorem executeHook_timeout_counterexample :
    executeHook parseBlockTrue hookTO
      (ChildBehavior.closes true none "\x7b\"block\":true\x7d" "log") =
      some { exitCode := 1, stdout := "\x7b\"block\":true\x7d",
             stderr := "log", shouldBlock := true,
             response := some { block := some true, message := none } } := by
  decide

/-- C3 as amended: a timed-out run always has effective exit code 1 (never
the blocking code); when the accumulated stdout yields no explicit `block`
flag, the outcome has `blocks = false` and its stderr is prefixed with the
human-readable timeout notice naming the configured time limit; when stdout
parses with an explicit flag, `blocks` equals that flag and stderr is left
unprefixed. -/
theorem executeHook_timeout_contract (parse : String → Option HookResponse)
    (hook : HookCommand) (exitCode : Option Int) (stdout stderr : String)
    (r : HookResult)
    (h : executeHook parse hook
      (ChildBehavior.closes true exitCode stdout stderr) = some r) :
    r.exitCode = 1
    ∧ (responseBlockFlag r = none →
        r.shouldBlock = false ∧
        r.stderr =
          timeoutNotice (hook.timeout.getD DEFAULT_HOOK_TIMEOUT) ++ stderr)
    ∧ (∀ bflag, responseBlockFlag r = some bflag →
        r.shouldBlock = bflag ∧ r.stderr = stderr) := by
  simp [executeHook] at h
  subst h
  obtain ⟨hec, hout, hresp, hblock, herr⟩ :=
    closeResult_cases parse (hook.timeout.getD DEFAULT_HOOK_TIMEOUT)
      true exitCode stdout stderr
  simp only [if_pos rfl] at hec herr
  refine ⟨hec, ?_, ?_⟩
  · intro hflag
    rw [hflag] at hblock herr
    simp at hblock herr
    refine ⟨?_, herr⟩
    rw [hblock, hec]
    simp [BLOCKING_EXIT_CODE]
  · intro bflag hflag
    rw [hflag] at hblock herr
    simp at hblock herr
    exact ⟨hblock, herr⟩

/-- Witness for the amended C3 at a concrete timed-out run with no
structured stdout. -/
theorem executeHook_timeout_contract_witness :
    executeHook parseNothing hookTO (ChildBehavior.closes true none "" "err")
      = some resultTO
    ∧ (resultTO.exitCode = 1
      ∧ (responseBlockFlag resultTO = none →
          resultTO.shouldBlock = false ∧
          resultTO.stderr =
            timeoutNotice (hookTO.timeout.getD DEFAULT_HOOK_TIMEOUT) ++ "err")
      ∧ (∀ bflag, responseBlockFlag resultTO = some bflag →
          resultTO.shouldBlock = bflag ∧ resultTO.stderr = "err")) :=
  ⟨by decide, executeHook_timeout_contract parseNothing hookTO none "" "err"
    resultTO (by decide)⟩

/-- C2: the verdict blocks exactly when some outcome blocks; the combined
message takes, for each blocking outcome in order, the first non-empty of
response message, stderr, stdout, or the fixed fallback, joined by newlines;
with no blocking outcome it is the empty string. -/
theorem aggregator_contract (results : List HookResult) :
    (shouldBlockOperation results = true ↔
      ∃ r ∈ results, r.shouldBlock = true)
    ∧ getBlockingMessage results =
        String.intercalate "\n" ((results.filter fun r => r.shouldBlock).map
          fun r =>
            if respMessage r ≠ "" then respMessage r
            else if r.stderr ≠ "" then r.stderr
            else if r.stdout ≠ "" then r.stdout
            else hookBlockedFallback)
    ∧ (shouldBlockOperation results = false →
        getBlockingMessage results = "") := by
  have hfrag : blockingFragment = fun r : HookResult =>
      if respMessage r ≠ "" then respMessage r
      else if r.stderr ≠ "" then r.stderr
      else if r.stdout ≠ "" then r.stdout
      else hookBlockedFallback := rfl
  refine ⟨?_, ?_, ?_⟩
  · simp [shouldBlockOperation, List.any_eq_true]
  · rw [← hfrag]
    simp only [getBlockingMessage]
    cases hf : results.filter (fun r => r.shouldBlock) with
    | nil => rfl
    | cons b t => rfl
  · intro h
    have hnil : results.filter (fun r => r.shouldBlock) = [] := by
      rw [List.filter_eq_nil_iff]
      intro a ha
      simp only [shouldBlockOperation, List.any_eq_false] at h
      exact h a ha
    simp only [getBlockingMessage]
    rw [hnil]
    rfl

/-- Witness for C2: with a single non-blocking outcome the verdict allows
and the combined message is empty. -/
theorem aggregator_contract_witness :
    shouldBlockOperation [allowOutcome] = false
    ∧ getBlockingMessage [allowOutcome] = "" :=
  ⟨by decide, (aggregator_contract [allowOutcome]).2.2 (by decide)⟩

/-- C10: the verdict blocks exactly when the combined message is non-empty —
every blocking outcome contributes a non-empty fragment (the fixed fallback
when message, stderr and stdout are all empty), and with no blocking outcome
the message is exactly empty. -/
theorem shouldBlock_iff_blockingMessage (results : List HookResult) :
    shouldBlockOperation results = true ↔ getBlockingMessage results ≠ "" := by
  cases hf : results.filter (fun r => r.shouldBlock) with
  | nil =>
    have hany : results.any (fun r => r.shouldBlock) = false := by
      rw [List.any_eq_false]
      exact List.filter_eq_nil_iff.mp hf
    simp only [shouldBlockOperation, getBlockingMessage, hf]
    rw [hany]
    simp
  | cons b t =>
    have hbmem : b ∈ results.filter (fun r => r.shouldBlock) := by
      rw [hf]; exact List.mem_cons_self _ _
    have hb := List.mem_filter.mp hbmem
    have hany : results.any (fun r => r.shouldBlock) = true :=
      List.any_eq_true.mpr ⟨b, hb.1, hb.2⟩
    have hne : String.intercalate "\n" ((b :: t).map blockingFragment) ≠ "" := by
      rw [List.map_cons]
      exact intercalate_cons_ne_empty _ _ (blockingFragment_ne_empty b)
    simp only [shouldBlockOperation, getBlockingMessage, hf]
    rw [hany]
    simpa using hne

/-- C4: dispatch returns exactly one outcome per queued command, in queue
order — the fulfilled value when the execution settles normally, and, when
it is rejected with a fault, a captured outcome with exit code 1,
`blocks = false` and the fault text as stderr; dispatch itself is total and
never propagates the fault. -/
theorem executeHooks_one_outcome_per_queued
    (compile : String → Option (String → Bool))
    (settle : Nat → HookCommand → Except String HookResult)
    (hooksConfig : Option HooksConfig) (hookType : HookType)
    (input : HookInput) :
    executeHooks compile settle hooksConfig hookType input =
      (dispatchQueue compile hooksConfig hookType input).enum.map (fun p =>
        match settle p.1 p.2 with
        | Except.ok v => v
        | Except.error reason => errorResult reason)
    ∧ ∀ reason, errorResult reason =
        { exitCode := 1, stdout := "", stderr := reason,
          shouldBlock := false, response := none } := by
  refine ⟨?_, fun reason => rfl⟩
  cases hooksConfig with
  | none => rfl
  | some c =>
    cases hm : c.get hookType with
    | none => simp [executeHooks, dispatchQueue, hm]
    | some matchers =>
      by_cases he : matchers.isEmpty = true
      · have hmt : matchers = [] := List.isEmpty_iff.mp he
        subst hmt
        simp [executeHooks, dispatchQueue, hm, queuedHooks]
      · simp [executeHooks, dispatchQueue, hm, he, settleAll_eq, List.enum]

/-- Counterexample to C6: `sampleInput` has no tool name and the concrete
pattern `starpat` does not match the empty string under `starCompile`, yet
the dispatch queues (and runs) the command of the rule — the missing tool
name is replaced by the literal string `*`, which the pattern does match,
not by the empty string. -/
theorem dispatch_missing_toolName_counterexample :
    sampleInput.toolName = none
    ∧ matchesPattern starCompile "starpat" "" = false
    ∧ executeHooks starCompile okSettle (some starConfig) HookType.PreToolUse
        sampleInput = [okOutcome] :=
  ⟨rfl, by decide, by decide⟩

/-- C6 as amended: when deciding which commands to queue, a missing tool
name makes every pattern be tested against the literal string `*` (the same
queue as for a present tool name `*`), while an empty-but-present tool name
is tested against the empty string. -/
theorem queuedHooks_subject_contract
    (compile : String → Option (String → Bool))
    (matchers : List HookMatcher) :
    queuedHooks compile matchers none = queuedHooks compile matchers (some "*")
    ∧ queuedHooks compile matchers (some "") =
        matchers.flatMap (fun m =>
          if matchesPattern compile m.matcher "" then m.hooks else []) :=
  ⟨rfl, rfl⟩

end MechHooks
